import Mathlib

/-!
# Air-quality dashboard: verification of the data pipeline

Shallow embedding of the Snapshot Fetcher and Measurement Loader of the
air-quality dashboard (latest revision, `st.py`), together with a
spec-level reference pipeline for the refinement claims.

Modelling conventions:

* A stored timestamp is the raw TEXT held in the SQLite `measurements`
  table.  `sqliteDateTime` models SQLite's `datetime()` applied to such
  TEXT values, restricted to the 19-character forms that occur in this
  dataset (`YYYY-MM-DD HH:MM:SS` and `YYYY-MM-DDTHH:MM:SS`); any other
  string yields `none` (SQL `NULL`).  SQL comparison of `datetime()`
  outputs is comparison of the normalized civil values; `ORDER BY
  timestamp` on the raw column is binary (byte-wise) string comparison.
* Localization (`pandas` `tz_localize` with the fixed `Europe/Zagreb`
  zone) is modelled as tagging the civil value with the zone name.
  Within a single fixed zone the instant order coincides with the civil
  order; the DST-transition corner cases (ambiguous or non-existent
  civil times) are outside this model.
* The local snapshot file is `Option String` (`none` = file absent);
  `download_database` additionally returns the list of snapshot states
  observable after each primitive file-system step.
* Numeric sensor readings are `Option ℚ` (`none` = NaN / absent).
-/

namespace AirQ

/-- A civil (wall-clock) date-time, the result of SQLite's `datetime()`
normalization of a stored timestamp. -/
structure CivilDT where
  year : Nat
  month : Nat
  day : Nat
  hour : Nat
  minute : Nat
  second : Nat
deriving DecidableEq, Repr

/-- Numeric encoding of a civil date-time; on component values produced by
`sqliteDateTime` (month ≤ 12, day ≤ 31, hour ≤ 23, minute, second ≤ 59) it
is order-isomorphic to the lexicographic component order, which is the
order of the normalized `YYYY-MM-DD HH:MM:SS` strings SQLite compares. -/
def civilCode (c : CivilDT) : Nat :=
  ((((c.year * 13 + c.month) * 32 + c.day) * 24 + c.hour) * 60 + c.minute) * 60 + c.second

/-- Order on normalized civil date-times (SQLite comparison of
`datetime()` outputs). -/
def civilLe (a b : CivilDT) : Prop := civilCode a ≤ civilCode b

instance : DecidableRel civilLe := fun a b =>
  inferInstanceAs (Decidable (civilCode a ≤ civilCode b))

/-- A decimal digit of a timestamp string. -/
def digit (c : Char) : Option Nat :=
  if '0' ≤ c ∧ c ≤ '9' then some (c.toNat - '0'.toNat) else none

def isLeapYear (y : Nat) : Bool :=
  y % 4 == 0 && (y % 100 != 0 || y % 400 == 0)

def daysInMonth (y m : Nat) : Nat :=
  if m == 2 then (if isLeapYear y then 29 else 28)
  else if m == 4 || m == 6 || m == 9 || m == 11 then 30
  else 31

/-- The two-digit decimal number at positions `i, i+1` of the character
list of a timestamp string. -/
def num2 (l : List Char) (i : Nat) : Option Nat := do
  let c1 ← l[i]?
  let c2 ← l[i+1]?
  let d1 ← digit c1
  let d2 ← digit c2
  pure (d1 * 10 + d2)

/-- Model of SQLite's `datetime()` on the TEXT timestamps of this dataset:
accepts `YYYY-MM-DD HH:MM:SS` and `YYYY-MM-DDTHH:MM:SS` with in-range
components and returns the normalized civil value; every other string is
malformed and yields `none` (SQL `NULL`).  The storage engine is an
external collaborator of the repository; this is the sliver of its
date-time semantics the queries in `st.py` rely on. -/
def sqliteDateTime (s : String) : Option CivilDT := do
  let l := s.data
  guard (l.length = 19)
  guard (l[4]? = some '-' ∧ l[7]? = some '-' ∧ (l[10]? = some ' ' ∨ l[10]? = some 'T') ∧
    l[13]? = some ':' ∧ l[16]? = some ':')
  let y1 ← num2 l 0
  let y2 ← num2 l 2
  let mo ← num2 l 5
  let d ← num2 l 8
  let h ← num2 l 11
  let mi ← num2 l 14
  let sec ← num2 l 17
  let y := y1 * 100 + y2
  guard (1 ≤ mo ∧ mo ≤ 12 ∧ 1 ≤ d ∧ d ≤ daysInMonth y mo ∧ h ≤ 23 ∧ mi ≤ 59 ∧ sec ≤ 59)
  pure ⟨y, mo, d, h, mi, sec⟩

/-- A row of the `measurements` table.  Readings are `Option ℚ`
(`none` = NaN). -/
structure Row where
  id : Nat
  locationID : Nat
  timestamp : String
  temperature : Option ℚ
  humidity : Option ℚ
  PM10 : Option ℚ
  PM2_5 : Option ℚ
  NO2 : Option ℚ
  O3 : Option ℚ
  SO2 : Option ℚ
deriving DecidableEq, Repr

/-- The single fixed zone convention of the dataset. -/
def ZAGREB_TZ : String := "Europe/Zagreb"

/-- A zone-aware instant: a civil value tagged with its zone.  Within the
single fixed zone, instant order is civil order. -/
structure AwareTs where
  civil : CivilDT
  zone : String
deriving DecidableEq, Repr

/-- `tz_localize(ZAGREB_TZ)` on a naive (no-offset) civil value. -/
def tz_localize (c : CivilDT) : AwareTs := ⟨c, ZAGREB_TZ⟩

/-- Instant order on zone-aware timestamps of the single fixed zone. -/
def awareLe (a b : AwareTs) : Prop := civilLe a.civil b.civil

instance : DecidableRel awareLe := fun a b =>
  inferInstanceAs (Decidable (civilLe a.civil b.civil))

/-- A measurement as handed to the presentation layer: the stored row with
its timestamp localized to the zone-aware instant. -/
structure AwareRow where
  row : Row
  ts : AwareTs
deriving DecidableEq, Repr

/-- The post-query localization step of `load_data`:
`pd.to_datetime` followed by `tz_localize(ZAGREB_TZ)`. -/
def localizeRow (r : Row) : Option AwareRow :=
  (sqliteDateTime r.timestamp).map fun c => ⟨r, tz_localize c⟩

/-- Byte-wise (memcmp) strict order on character lists: SQLite's BINARY
collation on the ASCII TEXT values of this dataset. -/
def bytesLt : List Char → List Char → Bool
  | _, [] => false
  | [], _ :: _ => true
  | a :: as, b :: bs => decide (a < b) || (decide (a = b) && bytesLt as bs)

theorem bytesLt_nil (l : List Char) : bytesLt l [] = false := by
  cases l <;> rfl

theorem bytesLt_ge_trans :
    ∀ {a b c : List Char}, bytesLt b a = false → bytesLt c b = false → bytesLt c a = false
  | [], _, _, _, _ => bytesLt_nil _
  | _ :: _, b, [], h1, h2 => by
    cases b with
    | nil => simp [bytesLt] at h1
    | cons y ys => simp [bytesLt] at h2
  | x :: xs, b, z :: zs, h1, h2 => by
    cases b with
    | nil => simp [bytesLt] at h1
    | cons y ys =>
      simp only [bytesLt, Bool.or_eq_false_iff, Bool.and_eq_false_iff,
        decide_eq_false_iff_not, not_lt] at h1 h2 ⊢
      obtain ⟨hxy, h1'⟩ := h1
      obtain ⟨hyz, h2'⟩ := h2
      refine ⟨le_trans hxy hyz, ?_⟩
      rcases h1' with h1' | h1' <;> rcases h2' with h2' | h2'
      · exact Or.inl fun hzx => h1' (le_antisymm (hzx ▸ hyz) hxy)
      · exact Or.inl fun hzx => h1' (le_antisymm (hzx ▸ hyz) hxy)
      · exact Or.inl fun hzx => h2' (hzx.trans (le_antisymm (hzx ▸ hyz) hxy).symm)
      · exact Or.inr (bytesLt_ge_trans h1' h2')

theorem bytesLt_not_both (a b : List Char) :
    bytesLt a b = false ∨ bytesLt b a = false := by
  induction a generalizing b with
  | nil => cases b <;> simp [bytesLt]
  | cons x xs ih =>
    cases b with
    | nil => simp [bytesLt]
    | cons y ys =>
      simp only [bytesLt, Bool.or_eq_false_iff, Bool.and_eq_false_iff,
        decide_eq_false_iff_not, not_lt]
      rcases lt_trichotomy x y with h | h | h
      · exact Or.inr ⟨le_of_lt h, Or.inl (ne_of_gt h)⟩
      · subst h
        rcases ih ys with h' | h'
        · exact Or.inl ⟨le_rfl, Or.inr h'⟩
        · exact Or.inr ⟨le_rfl, Or.inr h'⟩
      · exact Or.inl ⟨le_of_lt h, Or.inl (ne_of_gt h)⟩

/-- `a ≤ b` in SQLite's BINARY TEXT collation. -/
def textLe (a b : String) : Prop := bytesLt b.data a.data = false

instance : ∀ a b, Decidable (textLe a b) := fun a b =>
  inferInstanceAs (Decidable (_ = false))

/-- Raw-text order on rows: SQLite `ORDER BY timestamp` over the TEXT
column is byte-wise string comparison. -/
def rawLe (a b : Row) : Prop := textLe a.timestamp b.timestamp

instance : DecidableRel rawLe := fun a b =>
  inferInstanceAs (Decidable (textLe a.timestamp b.timestamp))

instance : IsTotal Row rawLe :=
  ⟨fun a b => bytesLt_not_both b.timestamp.data a.timestamp.data⟩

instance : IsTrans Row rawLe := ⟨fun _ _ _ h1 h2 => bytesLt_ge_trans h1 h2⟩

/-- The `WHERE` clause of `load_data` (st.py):
`locationID = ? AND datetime(timestamp) BETWEEN datetime(?) AND datetime(?)`.
If any of the three `datetime()` calls yields `NULL` the condition is not
satisfied (SQL three-valued logic: the row is not selected). -/
def sqlRowMatch (location_id : Nat) (start_dt end_dt : String) (r : Row) : Bool :=
  r.locationID == location_id &&
    match sqliteDateTime r.timestamp, sqliteDateTime start_dt, sqliteDateTime end_dt with
    | some t, some s, some e => decide (civilLe s t) && decide (civilLe t e)
    | _, _, _ => false

/-- `load_data` of `st.py`: select the location's rows whose normalized
timestamp lies between the normalized bounds, order by the raw `timestamp`
text, then localize the timestamps of the result to the fixed zone. -/
def load_data (db : List Row) (location_id : Nat) (start_dt end_dt : String) : List AwareRow :=
  (((db.filter (sqlRowMatch location_id start_dt end_dt)).insertionSort rawLe).filterMap
    localizeRow)

/-- Sort key of `get_latest_measurement`: `datetime(timestamp)`, `NULL`
for malformed rows. -/
def tsKeyCode (r : Row) : Option Nat := (sqliteDateTime r.timestamp).map civilCode

/-- Order on optional sort keys with `NULL` below every value, as in
SQLite ordering. -/
def optKeyLe (a b : Option Nat) : Prop :=
  match a, b with
  | none, _ => True
  | some _, none => False
  | some x, some y => x ≤ y

instance : DecidableRel optKeyLe := fun a b =>
  match a, b with
  | none, _ => isTrue trivial
  | some _, none => isFalse (fun h => h)
  | some x, some y => inferInstanceAs (Decidable (x ≤ y))

/-- `ORDER BY datetime(timestamp) DESC`: `a` comes no later than `b` when
`a`'s key is at least `b`'s; `NULL` keys sort last. -/
def latestGe (a b : Row) : Prop := optKeyLe (tsKeyCode b) (tsKeyCode a)

instance : DecidableRel latestGe := fun a b =>
  inferInstanceAs (Decidable (optKeyLe (tsKeyCode b) (tsKeyCode a)))

theorem optKeyLe_refl (a : Option Nat) : optKeyLe a a := by
  unfold optKeyLe
  rcases a with _ | x <;> simp

theorem optKeyLe_total (a b : Option Nat) : optKeyLe a b ∨ optKeyLe b a := by
  unfold optKeyLe
  rcases a with _ | x <;> rcases b with _ | y <;> simp [Nat.le_total]

theorem optKeyLe_trans {a b c : Option Nat} (h1 : optKeyLe a b) (h2 : optKeyLe b c) :
    optKeyLe a c := by
  unfold optKeyLe at *
  rcases a with _ | x <;> rcases b with _ | y <;> rcases c with _ | z <;> simp_all
  omega

instance : IsTotal Row latestGe :=
  ⟨fun a b => optKeyLe_total (tsKeyCode b) (tsKeyCode a)⟩

instance : IsTrans Row latestGe :=
  ⟨fun _ _ _ h1 h2 => optKeyLe_trans h2 h1⟩

/-- `get_latest_measurement` of `st.py`: all rows of the location, ordered
by `datetime(timestamp) DESC`, `LIMIT 1`; `None` when the location has no
rows.  It takes no range argument. -/
def get_latest_measurement (db : List Row) (location_id : Nat) : Option Row :=
  ((db.filter (fun r => r.locationID == location_id)).insertionSort latestGe).head?

/-- `get_air_quality_status` of `st.py`: PM2.5 to a qualitative label and
a colour; `none` models a NaN reading. -/
def get_air_quality_status (pm25_value : Option ℚ) : String × String :=
  match pm25_value with
  | none => ("Nema podataka", "gray")
  | some v =>
    if v ≤ 12 then ("Dobra", "green")
    else if v ≤ 35.4 then ("Umjerena", "yellow")
    else if v ≤ 55.4 then ("Nezdrava za osjetljive", "orange")
    else if v ≤ 150.4 then ("Nezdrava", "red")
    else ("Vrlo nezdrava", "purple")

/-- Outcome of the HTTP GET of `download_database`. -/
inductive FetchResult where
  | success (body : String)
  | netError (msg : String)
  | timeout (msg : String)
  | httpError (msg : String)
deriving DecidableEq, Repr

def FetchResult.isFailure : FetchResult → Bool
  | .success _ => false
  | _ => true

def FetchResult.failMsg : FetchResult → String
  | .success _ => ""
  | .netError m => m
  | .timeout m => m
  | .httpError m => m

/-- The body of the `try` block of `download_database`: `requests.get`
raises on a network error or timeout, `raise_for_status` raises on a
non-success HTTP status; on success `open(LOCAL_DB, "wb")` truncates the
snapshot file and `f.write(r.content)` writes the body.  Returns the new
file content together with the snapshot states observable after each of
those two file-system steps. -/
def fetchAttempt (r : FetchResult) : Except String (String × List (Option String)) :=
  match r with
  | .netError m => .error m
  | .timeout m => .error m
  | .httpError m => .error m
  | .success body => .ok (body, [some "", some body])

/-- `download_database` of `st.py`: the `try/except` wrapper around
`fetchAttempt`.  Returns the `(success, message)` pair, the final snapshot
file content, and the full list of observable snapshot states (starting
from the prior content). -/
def download_database (r : FetchResult) (file : Option String) :
    (Bool × String) × Option String × List (Option String) :=
  match fetchAttempt r with
  | .ok (body, states) => ((true, "Baza uspješno preuzeta"), some body, file :: states)
  | .error m => ((false, m), file, [file])

/-- `os.path.exists(LOCAL_DB)`. -/
def os_path_exists (file : Option String) : Bool := file.isSome

/-- Outcome of the startup fetch block of `main` in `st.py`. -/
inductive StartupOutcome where
  | proceed
  | proceedWithWarning
  | halt
deriving DecidableEq, Repr

/-- The startup fetch block of `main`: on fetch failure, warn and proceed
with the stale copy when the local snapshot exists, otherwise show the
fatal error and `st.stop()`. -/
def startupPolicy (r : FetchResult) (file : Option String) : StartupOutcome :=
  let res := download_database r file
  if res.1.1 then .proceed
  else if os_path_exists res.2.1 then .proceedWithWarning
  else .halt

/-- Whether the session goes on to run any database query after the
startup fetch block (`st.stop()` halts before the first query). -/
def queriesAttempted : StartupOutcome → Bool
  | .halt => false
  | _ => true

/-- Instant order on localized measurements. -/
def awareRowLe (a b : AwareRow) : Prop := awareLe a.ts b.ts

instance : DecidableRel awareRowLe := fun a b =>
  inferInstanceAs (Decidable (awareLe a.ts b.ts))

instance : IsTotal AwareRow awareRowLe :=
  ⟨fun a b => Nat.le_total (civilCode a.ts.civil) (civilCode b.ts.civil)⟩

instance : IsTrans AwareRow awareRowLe :=
  ⟨fun _ _ _ h1 h2 => Nat.le_trans h1 h2⟩

/-- Raw-text order carried over to localized measurements. -/
def awareRawLe (a b : AwareRow) : Prop := textLe a.row.timestamp b.row.timestamp

/-- Modelled from the spec: `loadSeries(locationId, rangeStart, rangeEnd)`
of §4.2.  Every stored row of the location is normalized first (a row
whose timestamp cannot be parsed under the fixed convention is skipped);
the range filter and the ascending sort then operate on the normalized
zone-aware instants. -/
def specLoadSeries (db : List Row) (loc : Nat) (rangeStart rangeEnd : AwareTs) :
    List AwareRow :=
  (((db.filterMap fun r => if r.locationID == loc then localizeRow r else none).filter
      fun a => decide (awareLe rangeStart a.ts) && decide (awareLe a.ts rangeEnd)).insertionSort
    awareRowLe)

/-! ## Example data used by witnesses and counterexamples -/

/-- A row whose stored timestamp uses the ISO `T` separator (both
separators are accepted by the storage engine's `datetime()`, and the
revisions of the dashboard themselves switched between the two when
writing query bounds). -/
def rowMayT : Row := ⟨1, 1, "2024-05-01T04:00:00", none, none, none, none, none, none, none⟩

def rowMaySpace : Row := ⟨2, 1, "2024-05-01 05:00:00", none, none, none, none, none, none, none⟩

def rowOtherLoc : Row := ⟨3, 2, "2024-05-01 06:00:00", none, none, none, none, none, none, none⟩

def rowBad : Row := ⟨4, 1, "not-a-timestamp", none, none, none, none, none, none, none⟩

def exDb1 : List Row := [rowMayT, rowMaySpace]

def rowJunT : Row := ⟨1, 1, "2024-06-10T06:00:00", none, none, none, none, none, none, none⟩

def rowJunSpace : Row := ⟨2, 1, "2024-06-10 07:30:00", none, none, none, none, none, none, none⟩

def exDb2 : List Row := [rowJunT, rowJunSpace]

def rowJan : Row := ⟨1, 3, "2024-01-01 00:00:00", none, none, none, none, none, none, none⟩

def rowMar : Row := ⟨2, 3, "2024-03-01 00:00:00", none, none, none, none, none, none, none⟩

def exDb3 : List Row := [rowJan, rowMar, rowOtherLoc]

def exDb4 : List Row := [rowMaySpace, rowBad]

/-! ## Helper lemmas -/

/-- The rows selected and localized by `load_data` (before its sort) are
exactly the rows the spec pipeline selects (before its sort): under the
single fixed zone convention, comparing SQLite-normalized civil values
against the civil values of the bounds selects the same rows as comparing
normalized zone-aware instants. -/
theorem select_localize_eq (db : List Row) (loc : Nat) (s e : String)
    (cs ce : CivilDT) (hs : sqliteDateTime s = some cs) (he : sqliteDateTime e = some ce) :
    (db.filter (sqlRowMatch loc s e)).filterMap localizeRow =
      ((db.filterMap fun r => if r.locationID == loc then localizeRow r else none).filter
        fun a => decide (awareLe (tz_localize cs) a.ts) && decide (awareLe a.ts (tz_localize ce))) := by
  induction db with
  | nil => rfl
  | cons r t ih =>
    by_cases hl : r.locationID = loc
    · cases hp : sqliteDateTime r.timestamp with
      | none =>
        have hm : sqlRowMatch loc s e r = false := by simp [sqlRowMatch, hp]
        have hg : localizeRow r = none := by simp [localizeRow, hp]
        simp [List.filter_cons, List.filterMap_cons, hm, hl, hg, ih]
      | some c =>
        have hg : localizeRow r = some ⟨r, tz_localize c⟩ := by simp [localizeRow, hp]
        have hm : sqlRowMatch loc s e r =
            (decide (civilLe cs c) && decide (civilLe c ce)) := by
          simp [sqlRowMatch, hp, hs, he, hl]
        by_cases hb : civilLe cs c ∧ civilLe c ce
        · have hm' : sqlRowMatch loc s e r = true := by
            simp [hm, hb.1, hb.2]
          simp [List.filter_cons, List.filterMap_cons, hm', hl, hg, ih, awareLe,
            tz_localize, hb.1, hb.2]
        · have hm' : sqlRowMatch loc s e r = false := by
            rcases not_and_or.mp hb with hb' | hb' <;> simp [hm, hb']
          have hq : (decide (awareLe (tz_localize cs) (tz_localize c)) &&
              decide (awareLe (tz_localize c) (tz_localize ce))) = false := by
            rcases not_and_or.mp hb with hb' | hb' <;>
              simp [awareLe, tz_localize, hb']
          simp [List.filter_cons, List.filterMap_cons, hm', hl, hg, ih, hq]
    · have hm : sqlRowMatch loc s e r = false := by
        simp [sqlRowMatch, hl]
      simp [List.filter_cons, List.filterMap_cons, hm, hl, ih]

/-! ## Claims -/

/-- C1 (counterexample): `load_data` does NOT coincide with the
spec-level normalize-first pipeline.  With two rows of one location on
the same civil date, one stored with the `T` separator and one with the
space separator, both parse, both pass the range filter, but `load_data`
orders them by the raw stored text (the space byte sorts before `T`),
while the normalize-first pipeline orders them by the normalized
instant — so the claim that every comparison and sort order operates on
the normalized zone-aware instant fails. -/
theorem load_data_ne_specLoadSeries :
    sqliteDateTime "2024-05-01 00:00:00" = some ⟨2024, 5, 1, 0, 0, 0⟩ ∧
    sqliteDateTime "2024-05-01 23:59:59" = some ⟨2024, 5, 1, 23, 59, 59⟩ ∧
    load_data exDb1 1 "2024-05-01 00:00:00" "2024-05-01 23:59:59" ≠
      specLoadSeries exDb1 1 (tz_localize ⟨2024, 5, 1, 0, 0, 0⟩)
        (tz_localize ⟨2024, 5, 1, 23, 59, 59⟩) :=
  ⟨by decide, by decide, by decide⟩

/-- C1 (amended): normalization happens once per query, but after the SQL
filter: the range filter compares SQLite-normalized civil values, which
under the single fixed zone convention selects exactly the rows the
normalize-first pipeline selects — the result is a permutation of the
spec pipeline's result, with every returned timestamp localized to the
zone-aware instant — while the sort order operates on the raw stored
timestamp text. -/
theorem load_data_refines_specLoadSeries (db : List Row) (loc : Nat) (s e : String)
    (cs ce : CivilDT) (hs : sqliteDateTime s = some cs) (he : sqliteDateTime e = some ce) :
    (load_data db loc s e).Perm
      (specLoadSeries db loc (tz_localize cs) (tz_localize ce)) ∧
    List.Sorted awareRawLe (load_data db loc s e) := by
  constructor
  · have h1 : (load_data db loc s e).Perm
        ((db.filter (sqlRowMatch loc s e)).filterMap localizeRow) :=
      List.Perm.filterMap localizeRow (List.perm_insertionSort rawLe _)
    have h2 : (specLoadSeries db loc (tz_localize cs) (tz_localize ce)).Perm
        ((db.filterMap fun r => if r.locationID == loc then localizeRow r else none).filter
          fun a => decide (awareLe (tz_localize cs) a.ts) &&
            decide (awareLe a.ts (tz_localize ce))) :=
      List.perm_insertionSort awareRowLe _
    rw [select_localize_eq db loc s e cs ce hs he] at h1
    exact h1.trans h2.symm
  · have hsorted : List.Sorted rawLe
        ((db.filter (sqlRowMatch loc s e)).insertionSort rawLe) :=
      List.sorted_insertionSort rawLe _
    refine List.Pairwise.filterMap localizeRow ?_ hsorted
    intro a a' hr b hb b' hb'
    simp only [localizeRow, Option.mem_def, Option.map_eq_some'] at hb hb'
    obtain ⟨c, -, rfl⟩ := hb
    obtain ⟨c', -, rfl⟩ := hb'
    exact hr

/-- C1 (witness for the amended theorem). -/
theorem load_data_refines_specLoadSeries_witness :
    sqliteDateTime "2024-05-01 00:00:00" = some ⟨2024, 5, 1, 0, 0, 0⟩ ∧
    (load_data exDb1 1 "2024-05-01 00:00:00" "2024-05-01 23:59:59").Perm
      (specLoadSeries exDb1 1 (tz_localize ⟨2024, 5, 1, 0, 0, 0⟩)
        (tz_localize ⟨2024, 5, 1, 23, 59, 59⟩)) ∧
    List.Sorted awareRawLe
      (load_data exDb1 1 "2024-05-01 00:00:00" "2024-05-01 23:59:59") :=
  ⟨by decide,
   (load_data_refines_specLoadSeries exDb1 1 "2024-05-01 00:00:00" "2024-05-01 23:59:59"
     ⟨2024, 5, 1, 0, 0, 0⟩ ⟨2024, 5, 1, 23, 59, 59⟩ (by decide) (by decide)).1,
   (load_data_refines_specLoadSeries exDb1 1 "2024-05-01 00:00:00" "2024-05-01 23:59:59"
     ⟨2024, 5, 1, 0, 0, 0⟩ ⟨2024, 5, 1, 23, 59, 59⟩ (by decide) (by decide)).2⟩

/-- C2 (code bug, evaluated at the failing input): with two in-range rows
of the same location and civil date, one stored with the `T` separator
and one with the space separator, `load_data` returns the row with the
later timestamp first (its raw text sorts first because the space byte
precedes `T`), so the returned sequence is not sorted ascending by
timestamp.  The sibling `get_latest_measurement` comments that ordering
by `datetime(timestamp)` is the fix for correct sorting, but `load_data`
still orders by the raw `timestamp` column. -/
theorem load_data_not_sorted_by_timestamp :
    (load_data exDb2 1 "2024-06-10 00:00:00" "2024-06-10 23:59:59").map
        (fun a => a.row.id) = [2, 1] ∧
    ¬ List.Sorted awareRowLe
        (load_data exDb2 1 "2024-06-10 00:00:00" "2024-06-10 23:59:59") :=
  ⟨by decide, by decide⟩

/-- C3: `get_latest_measurement` returns `None` exactly when the location
has no stored measurements, and otherwise returns a measurement of that
location whose `datetime(timestamp)` sort key is maximal among all of the
location's rows (malformed timestamps have a `NULL` key, below every
value).  The function takes no range argument, so its result is
independent of any range passed to `load_data` in the same session. -/
theorem get_latest_measurement_spec (db : List Row) (loc : Nat) :
    (get_latest_measurement db loc = none ↔ ∀ r ∈ db, ¬ r.locationID = loc) ∧
    (∀ m, get_latest_measurement db loc = some m →
      m ∈ db ∧ m.locationID = loc ∧
      ∀ r ∈ db, r.locationID = loc → optKeyLe (tsKeyCode r) (tsKeyCode m)) := by
  constructor
  · rw [get_latest_measurement, List.head?_eq_none_iff]
    constructor
    · intro h r hr hloc
      have : r ∈ ((db.filter fun r => r.locationID == loc).insertionSort latestGe) := by
        rw [List.mem_insertionSort, List.mem_filter]
        exact ⟨hr, by simp [hloc]⟩
      simp [h] at this
    · intro h
      have : db.filter (fun r => r.locationID == loc) = [] :=
        List.filter_eq_nil_iff.mpr fun r hr => by simp [h r hr]
      simp [this]
  · intro m hm
    rw [get_latest_measurement] at hm
    have hmem : m ∈ ((db.filter fun r => r.locationID == loc).insertionSort latestGe) :=
      List.mem_of_mem_head? hm
    have hmf := (List.mem_insertionSort latestGe).mp hmem
    rw [List.mem_filter] at hmf
    refine ⟨hmf.1, by simpa using hmf.2, ?_⟩
    intro r hr hloc
    have hrs : r ∈ ((db.filter fun r => r.locationID == loc).insertionSort latestGe) := by
      rw [List.mem_insertionSort, List.mem_filter]
      exact ⟨hr, by simp [hloc]⟩
    have hsorted : List.Sorted latestGe
        ((db.filter fun r => r.locationID == loc).insertionSort latestGe) :=
      List.sorted_insertionSort latestGe _
    cases hcons : ((db.filter fun r => r.locationID == loc).insertionSort latestGe) with
    | nil => rw [hcons] at hmem; simp at hmem
    | cons a t =>
      rw [hcons] at hm hrs hsorted
      have ham : a = m := by simpa using hm
      subst ham
      rcases List.mem_cons.mp hrs with rfl | hrt
      · exact optKeyLe_refl _
      · exact List.rel_of_sorted_cons hsorted r hrt

/-- C3 (witness): on a concrete database the returned measurement is the
row of the location with the maximal timestamp. -/
theorem get_latest_measurement_spec_witness :
    get_latest_measurement exDb3 3 = some rowMar ∧ rowMar ∈ exDb3 ∧
    rowMar.locationID = 3 ∧ optKeyLe (tsKeyCode rowJan) (tsKeyCode rowMar) ∧
    get_latest_measurement exDb3 7 = none :=
  ⟨by decide,
   ((get_latest_measurement_spec exDb3 3).2 rowMar (by decide)).1,
   ((get_latest_measurement_spec exDb3 3).2 rowMar (by decide)).2.1,
   ((get_latest_measurement_spec exDb3 3).2 rowMar (by decide)).2.2 rowJan (by decide)
     (by decide),
   (get_latest_measurement_spec exDb3 7).1.mpr (by decide)⟩

/-- C4: a row whose stored timestamp cannot be parsed under the fixed
convention is excluded from the result of `load_data` by the `WHERE`
clause (`datetime()` yields `NULL` for it), while every other row is
processed exactly as if the malformed row were absent: the query result
over the full table equals the result over the table with the malformed
rows removed, and every returned row's timestamp parses.  No malformed
row aborts the query. -/
theorem load_data_skips_malformed (db : List Row) (loc : Nat) (s e : String) :
    load_data db loc s e =
      load_data (db.filter fun r => (sqliteDateTime r.timestamp).isSome) loc s e ∧
    ∀ a ∈ load_data db loc s e, (sqliteDateTime a.row.timestamp).isSome = true := by
  have key : ∀ l : List Row,
      (l.filter fun r => (sqliteDateTime r.timestamp).isSome).filter (sqlRowMatch loc s e) =
        l.filter (sqlRowMatch loc s e) := by
    intro l
    induction l with
    | nil => rfl
    | cons r t ih =>
      cases hp : sqliteDateTime r.timestamp with
      | none =>
        have hm : sqlRowMatch loc s e r = false := by simp [sqlRowMatch, hp]
        simp [List.filter_cons, hp, hm, ih]
      | some c => simp [List.filter_cons, hp, ih]
  constructor
  · simp only [load_data]
    rw [key db]
  · intro a ha
    simp only [load_data, List.mem_filterMap] at ha
    obtain ⟨r, -, hr⟩ := ha
    simp only [localizeRow, Option.map_eq_some'] at hr
    obtain ⟨c, hc, rfl⟩ := hr
    simp [hc]

/-- C4 (witness): a concrete query over a table holding one well-formed
and one malformed row returns the same sequence as over the table with
the malformed row removed, and the returned row's timestamp parses. -/
theorem load_data_skips_malformed_witness :
    load_data exDb4 1 "2024-05-01 00:00:00" "2024-05-01 23:59:59" =
      load_data (exDb4.filter fun r => (sqliteDateTime r.timestamp).isSome) 1
        "2024-05-01 00:00:00" "2024-05-01 23:59:59" ∧
    (sqliteDateTime
      (⟨rowMaySpace, tz_localize ⟨2024, 5, 1, 5, 0, 0⟩⟩ : AwareRow).row.timestamp).isSome
        = true :=
  ⟨(load_data_skips_malformed exDb4 1 "2024-05-01 00:00:00" "2024-05-01 23:59:59").1,
   (load_data_skips_malformed exDb4 1 "2024-05-01 00:00:00" "2024-05-01 23:59:59").2
     ⟨rowMaySpace, tz_localize ⟨2024, 5, 1, 5, 0, 0⟩⟩ (by decide)⟩

/-- C5 (counterexample): the snapshot replacement is not atomic.  On a
successful fetch over an existing snapshot `"old"` with body `"new"`,
the observable snapshot states include the truncated state `some ""`
(after `open(LOCAL_DB, "wb")` and before the write), which is neither
the fully old nor the fully new content — the code writes the response
body directly to the snapshot path instead of writing to a temporary
path and renaming. -/
theorem download_database_not_atomic :
    ¬ ∀ st ∈ (download_database (.success "new") (some "old")).2.2,
        st = some "old" ∨ st = some "new" := by
  decide

/-- C5 (amended): on every successful fetch the response body is written
directly to the snapshot path — the file is first truncated and then
overwritten in place — so the observable states are exactly the prior
content, the truncated empty file, and the new content; a concurrent
reader may therefore observe a partially-written (truncated) snapshot. -/
theorem download_database_success_trace (body : String) (file : Option String) :
    download_database (.success body) file =
      ((true, "Baza uspješno preuzeta"), some body, [file, some "", some body]) := rfl

/-- C6: every failing fetch (network error, timeout, or non-success HTTP
status) leaves the snapshot file unchanged — the failure is raised before
the file is opened — and the failure reason is returned to the caller as
the `(False, message)` value of the `except` branch, not propagated as an
exception. -/
theorem download_database_failure (r : FetchResult) (file : Option String)
    (h : r.isFailure = true) :
    download_database r file = ((false, r.failMsg), file, [file]) := by
  cases r with
  | success body => simp [FetchResult.isFailure] at h
  | netError m => rfl
  | timeout m => rfl
  | httpError m => rfl

/-- C6 (witness). -/
theorem download_database_failure_witness :
    (FetchResult.netError "connection refused").isFailure = true ∧
    download_database (.netError "connection refused") (some "cached") =
      ((false, "connection refused"), some "cached", [some "cached"]) :=
  ⟨rfl, download_database_failure (.netError "connection refused") (some "cached") rfl⟩

/-- C7: startup policy of `main`.  When the fetch fails and a local
snapshot exists, the session proceeds with a warning; when the fetch
fails and no local snapshot exists, the session halts (`st.stop()`)
before any database query is attempted. -/
theorem startupPolicy_failure (r : FetchResult) (file : Option String)
    (h : r.isFailure = true) :
    (os_path_exists file = true →
      startupPolicy r file = .proceedWithWarning ∧
      queriesAttempted (startupPolicy r file) = true) ∧
    (os_path_exists file = false →
      startupPolicy r file = .halt ∧
      queriesAttempted (startupPolicy r file) = false) := by
  cases r with
  | success body => simp [FetchResult.isFailure] at h
  | netError m =>
    cases file <;>
      simp [startupPolicy, download_database, fetchAttempt, os_path_exists, queriesAttempted]
  | timeout m =>
    cases file <;>
      simp [startupPolicy, download_database, fetchAttempt, os_path_exists, queriesAttempted]
  | httpError m =>
    cases file <;>
      simp [startupPolicy, download_database, fetchAttempt, os_path_exists, queriesAttempted]

/-- C7 (witness). -/
theorem startupPolicy_failure_witness :
    (FetchResult.timeout "timed out").isFailure = true ∧
    startupPolicy (.timeout "timed out") (some "cached") = .proceedWithWarning ∧
    startupPolicy (.timeout "timed out") none = .halt ∧
    queriesAttempted (startupPolicy (.timeout "timed out") none) = false :=
  ⟨rfl,
   ((startupPolicy_failure (.timeout "timed out") (some "cached") rfl).1 rfl).1,
   ((startupPolicy_failure (.timeout "timed out") none rfl).2 rfl).1,
   ((startupPolicy_failure (.timeout "timed out") none rfl).2 rfl).2⟩

/-- C8: the classifier is a total pure function with inclusive upper
breakpoints: an absent (NaN) value maps to the Unknown label, a value
`≤ 12` to Good, a value in `(12, 35.4]` to Moderate, in `(35.4, 55.4]`
to Unhealthy-for-sensitive-groups, in `(55.4, 150.4]` to Unhealthy, and
any greater value to Very-unhealthy. -/
theorem get_air_quality_status_bands (v : Option ℚ) :
    (v = none → get_air_quality_status v = ("Nema podataka", "gray")) ∧
    (∀ x : ℚ, v = some x →
      ((x ≤ 12 → get_air_quality_status v = ("Dobra", "green")) ∧
       (12 < x → x ≤ 35.4 → get_air_quality_status v = ("Umjerena", "yellow")) ∧
       (35.4 < x → x ≤ 55.4 →
         get_air_quality_status v = ("Nezdrava za osjetljive", "orange")) ∧
       (55.4 < x → x ≤ 150.4 → get_air_quality_status v = ("Nezdrava", "red")) ∧
       (150.4 < x → get_air_quality_status v = ("Vrlo nezdrava", "purple")))) := by
  constructor
  · rintro rfl
    rfl
  · rintro x rfl
    simp only [get_air_quality_status]
    refine ⟨fun h1 => ?_, fun h1 h2 => ?_, fun h1 h2 => ?_, fun h1 h2 => ?_, fun h1 => ?_⟩
    · rw [if_pos h1]
    · rw [if_neg (by linarith), if_pos h2]
    · rw [if_neg (by linarith), if_neg (by linarith), if_pos h2]
    · rw [if_neg (by linarith), if_neg (by linarith), if_neg (by linarith), if_pos h2]
    · rw [if_neg (by linarith), if_neg (by linarith), if_neg (by linarith),
        if_neg (by linarith)]

/-- C8 (witness): the boundary values of the spec's classifier test. -/
theorem get_air_quality_status_bands_witness :
    get_air_quality_status (some 12) = ("Dobra", "green") ∧
    get_air_quality_status (some 12.1) = ("Umjerena", "yellow") ∧
    get_air_quality_status (some 35.4) = ("Umjerena", "yellow") ∧
    get_air_quality_status (some 35.5) = ("Nezdrava za osjetljive", "orange") ∧
    get_air_quality_status none = ("Nema podataka", "gray") :=
  ⟨((get_air_quality_status_bands (some 12)).2 12 rfl).1 (by norm_num),
   ((get_air_quality_status_bands (some 12.1)).2 12.1 rfl).2.1 (by norm_num) (by norm_num),
   ((get_air_quality_status_bands (some 35.4)).2 35.4 rfl).2.1 (by norm_num) (by norm_num),
   ((get_air_quality_status_bands (some 35.5)).2 35.5 rfl).2.2.1 (by norm_num) (by norm_num),
   (get_air_quality_status_bands none).1 rfl⟩

/-- C9: `load_data` with an empty range (normalized start strictly after
normalized end) returns the empty sequence, and so does a range that
matches no stored row; neither case is an error. -/
theorem load_data_empty_cases (db : List Row) (loc : Nat) (s e : String) :
    (∀ cs ce, sqliteDateTime s = some cs → sqliteDateTime e = some ce →
      ¬ civilLe cs ce → load_data db loc s e = []) ∧
    ((∀ r ∈ db, sqlRowMatch loc s e r = false) → load_data db loc s e = []) := by
  constructor
  · intro cs ce hs he hlt
    have hsel : db.filter (sqlRowMatch loc s e) = [] := by
      refine List.filter_eq_nil_iff.mpr fun r hr => ?_
      simp only [sqlRowMatch, hs, he, Bool.and_eq_true, decide_eq_true_eq]
      rintro ⟨-, hmatch⟩
      revert hmatch
      cases ht : sqliteDateTime r.timestamp with
      | none => simp
      | some t =>
        simp only [Bool.and_eq_true, decide_eq_true_eq]
        rintro ⟨h1, h2⟩
        exact hlt (Nat.le_trans h1 h2)
    simp [load_data, hsel]
  · intro hnone
    have hsel : db.filter (sqlRowMatch loc s e) = [] :=
      List.filter_eq_nil_iff.mpr fun r hr => by simp [hnone r hr]
    simp [load_data, hsel]

/-- C9 (witness): a concrete query whose start lies after its end returns
the empty sequence, and so does one matching no stored row. -/
theorem load_data_empty_cases_witness :
    load_data exDb3 3 "2024-04-01 00:00:00" "2024-02-01 00:00:00" = [] ∧
    load_data exDb3 9 "2024-01-01 00:00:00" "2024-12-31 23:59:59" = [] :=
  ⟨(load_data_empty_cases exDb3 3 "2024-04-01 00:00:00" "2024-02-01 00:00:00").1
     ⟨2024, 4, 1, 0, 0, 0⟩ ⟨2024, 2, 1, 0, 0, 0⟩ (by decide) (by decide) (by decide),
   (load_data_empty_cases exDb3 9 "2024-01-01 00:00:00" "2024-12-31 23:59:59").2
     (by decide)⟩

/-- C10: over the same snapshot, if `load_data` returns a non-empty
sequence for a location then `get_latest_measurement` for that location
returns a measurement (is not `None`). -/
theorem load_data_nonempty_latest_some (db : List Row) (loc : Nat) (s e : String)
    (h : load_data db loc s e ≠ []) :
    get_latest_measurement db loc ≠ none := by
  intro hnone
  apply h
  have hfl : db.filter (fun r => r.locationID == loc) = [] := by
    rw [get_latest_measurement, List.head?_eq_none_iff] at hnone
    have hlen :
        ((db.filter fun r => r.locationID == loc).insertionSort latestGe).length =
          (db.filter fun r => r.locationID == loc).length :=
      List.length_insertionSort latestGe _
    rw [hnone] at hlen
    exact List.length_eq_zero.mp hlen.symm
  have hsel : db.filter (sqlRowMatch loc s e) = [] := by
    refine List.filter_eq_nil_iff.mpr fun r hr => ?_
    have hr' := List.filter_eq_nil_iff.mp hfl r hr
    simp only [sqlRowMatch, Bool.and_eq_true]
    rintro ⟨hl, -⟩
    exact hr' hl
  simp [load_data, hsel]

/-- C10 (witness): a concrete non-empty series alongside a latest
measurement. -/
theorem load_data_nonempty_latest_some_witness :
    load_data exDb3 3 "2024-01-01 00:00:00" "2024-12-31 23:59:59" ≠ [] ∧
    get_latest_measurement exDb3 3 ≠ none :=
  ⟨by decide,
   load_data_nonempty_latest_some exDb3 3 "2024-01-01 00:00:00" "2024-12-31 23:59:59"
     (by decide)⟩

end AirQ
